import Mathlib

/-!
Verification development for the SankeySaldo repository.

Shallow embedding of `src/sie_parser.py` (class `SIEParser`) and
`src/sankey_generator.py` (class `SankeyGenerator`) in Lean 4, together with
theorems settling the specification claims about them.

Modelling conventions:
* Python byte buffers are `List Nat` (each entry a byte value below 256;
  decoders reduce modulo 256 to stay total).
* Python `float` amounts are modelled as exact rationals `ℚ`; the builtin
  `float(str)` conversion is modelled by `pyFloat?`, restricted to finite
  decimal literals (optional sign, digits, optional decimal point, optional
  exponent) — the claims only exercise such literals.
* Python `dict` is modelled as an insertion-ordered association list with
  last-write-wins upsert (`dictInsert`), matching CPython dict semantics.
* A raised exception that escapes a function is modelled by `Option`/`none`.
* The pandas DataFrame of transactions is modelled as the `List Transaction`
  of its rows (the fixed column set of the empty frame carries no data).
* The parser's ad-hoc log strings in `parsing_details` are modelled by the
  structured `Detail` type, one constructor per f-string the source appends;
  the final `'\n'.join` of the log is elided.
-/

namespace SankeySaldo

attribute [local semireducible] Rat.add Rat.mul Rat.inv Rat.sub Rat.ofScientific

/-- Whitespace test used by Python `str.strip()` / `str.isspace()` for the
characters that can occur here (ASCII whitespace). -/
def isSpace (c : Char) : Bool :=
  c = ' ' || c = '\t' || c = '\r' || c = '\n' || c = '\x0b' || c = '\x0c'

/-- Drop characters from a given set at both ends of a char list
(Python `str.strip(chars)`). -/
def stripCharsList (set : List Char) (cs : List Char) : List Char :=
  ((cs.dropWhile (· ∈ set)).reverse.dropWhile (· ∈ set)).reverse

/-- Python `line.strip()`: trim whitespace at both ends. -/
def pyStrip (s : String) : String :=
  String.mk (((s.data.dropWhile isSpace).reverse.dropWhile isSpace).reverse)

/-- Python `s.strip('"')`: trim quote characters at both ends. -/
def stripQuotes (s : String) : String :=
  String.mk (stripCharsList ['"'] s.data)

/-- Python `line.strip('{}')` on a transaction line: trim brace characters
at both ends. -/
def stripBraces (s : String) : String :=
  String.mk (stripCharsList ['\x7b', '\x7d'] s.data)

/-- Python `s.startswith(c)` for a single character. -/
def startsWithChar (s : String) (c : Char) : Bool :=
  match s.data with
  | [] => false
  | d :: _ => d = c

/-- Python `decoded_content.split('\n')` (sie_parser.py line 35): split at
every newline; `n` newlines yield `n + 1` parts, empty parts included. -/
def splitNl : List Char → List Char → List String
  | [], cur => [String.mk cur]
  | c :: rest, cur =>
    if c = '\n' then String.mk cur :: splitNl rest []
    else splitNl rest (cur ++ [c])

/-- Split a decoded file into its lines. -/
def pySplitLines (s : String) : List String :=
  splitNl s.data []

/-- Python `s.replace(',', '.')`. -/
def replaceCommaDot (s : String) : String :=
  String.mk (s.data.map (fun c => if c = ',' then '.' else c))

/-- The quote-aware tokenizer loop of `parse_sie_file` (sie_parser.py lines
54–70): quote characters toggle `in_quotes` and are dropped; whitespace
outside quotes flushes the current token. `cur` is the pending
`current_part`. -/
def tokAux : List Char → List Char → Bool → List (List Char)
  | [], cur, _ => if cur.isEmpty then [] else [cur]
  | c :: rest, cur, inQ =>
    if c = '"' then
      tokAux rest cur (!inQ)
    else if isSpace c && !inQ then
      if cur.isEmpty then tokAux rest [] inQ else cur :: tokAux rest [] inQ
    else
      tokAux rest (cur ++ [c]) inQ

/-- Tokenize one (already stripped) line into `parts`. -/
def tokenizeLine (s : String) : List String :=
  (tokAux s.data [] false).map String.mk

/-- The transaction-line tokenizer loop (sie_parser.py lines 120–136).  It
differs from `tokAux` in one point: a quote character that is not at index 0
and is not preceded by a space also flushes the current token.  `prev` is the
previous character (`none` at index 0). -/
def tTokAux : List Char → Option Char → List Char → Bool → List (List Char)
  | [], _, cur, _ => if cur.isEmpty then [] else [cur]
  | c :: rest, prev, cur, inQ =>
    if c = '"' then
      let flush := match prev with
        | some p => p ≠ ' '
        | none => false
      if flush && !cur.isEmpty then cur :: tTokAux rest (some c) [] (!inQ)
      else tTokAux rest (some c) cur (!inQ)
    else if isSpace c && !inQ then
      if cur.isEmpty then tTokAux rest (some c) [] inQ
      else cur :: tTokAux rest (some c) [] inQ
    else
      tTokAux rest (some c) (cur ++ [c]) inQ

/-- Tokenize the interior of a transaction line into `trans_parts`. -/
def tokenizeTrans (s : String) : List String :=
  (tTokAux s.data none [] false).map String.mk

/-- Numeric value of a digit list (most significant first). -/
def digitsVal (ds : List Char) : Nat :=
  ds.foldl (fun acc c => acc * 10 + (c.toNat - '0'.toNat)) 0

/-- Modelled from the Python builtin `float(str)`, restricted to finite
decimal literals: optional surrounding whitespace, optional sign, a mantissa
`digits [. digits]` or `. digits` containing at least one digit, and an
optional exponent `e`/`E` with optional sign and at least one digit.
`none` models the `ValueError` Python raises otherwise. -/
def pyFloat? (s : String) : Option ℚ :=
  let cs := stripCharsList [' ', '\t', '\r', '\n', '\x0b', '\x0c'] s.data
  let (sign, cs) : ℚ × List Char :=
    match cs with
    | '+' :: rest => (1, rest)
    | '-' :: rest => (-1, rest)
    | _ => (1, cs)
  let intPart := cs.takeWhile Char.isDigit
  let cs := cs.dropWhile Char.isDigit
  let (fracPart, cs) : List Char × List Char :=
    match cs with
    | '.' :: rest => (rest.takeWhile Char.isDigit, rest.dropWhile Char.isDigit)
    | _ => ([], cs)
  if intPart.isEmpty && fracPart.isEmpty then none
  else
    let mant : ℚ := sign * ((digitsVal intPart : ℚ) +
      (digitsVal fracPart : ℚ) / ((10 : ℚ) ^ fracPart.length))
    match cs with
    | [] => some mant
    | e :: rest =>
      if e = 'e' || e = 'E' then
        let (esign, rest) : Int × List Char :=
          match rest with
          | '+' :: r => (1, r)
          | '-' :: r => (-1, r)
          | _ => (1, rest)
        let eDigits := rest.takeWhile Char.isDigit
        let rest := rest.dropWhile Char.isDigit
        if eDigits.isEmpty || !rest.isEmpty then none
        else some (mant * (10 : ℚ) ^ (esign * (digitsVal eDigits : Int)))
      else none

/-- Insertion-ordered dictionary upsert (CPython `d[k] = v`): an existing key
keeps its position and gets the new value, a new key is appended. -/
def dictInsert (d : List (String × String)) (k v : String) :
    List (String × String) :=
  match d with
  | [] => [(k, v)]
  | (k', v') :: rest =>
    if k' = k then (k, v) :: rest else (k', v') :: dictInsert rest k v

/-- Dictionary lookup (first matching key). -/
def dictGet? (d : List (String × String)) (k : String) : Option String :=
  match d with
  | [] => none
  | (k', v') :: rest => if k' = k then some v' else dictGet? rest k

/-- Python `d.get(k, default)`. -/
def dictGetD (d : List (String × String)) (k dflt : String) : String :=
  (dictGet? d k).getD dflt

/-- The counter bump `line_types[identifier] = line_types.get(identifier, 0) + 1`
(sie_parser.py line 76), with CPython dict ordering. -/
def dictBump (d : List (String × Nat)) (k : String) : List (String × Nat) :=
  match d with
  | [] => [(k, 1)]
  | (k', n) :: rest =>
    if k' = k then (k, n + 1) :: rest else (k', n) :: dictBump rest k

/-- One row of the transaction table (the dict built at sie_parser.py
lines 155–162). -/
structure Transaction where
  date : String
  account : String
  amount : ℚ
  description : String
  ver_series : String
  ver_number : String
deriving DecidableEq

/-- The `current_ver` scope context (sie_parser.py lines 102–107). -/
structure Ver where
  series : String
  number : String
  date : String
  text : String
deriving DecidableEq

/-- The instance fields of `SIEParser` set in `__init__` (sie_parser.py
lines 6–13); they persist across calls to `parse_sie_file`. -/
structure ParserState where
  accounts : List (String × String)
  transactions : List Transaction
  company_name : String
  fiscal_year : String
deriving DecidableEq

/-- The fresh state `SIEParser.__init__` produces. -/
def initialParser : ParserState :=
  { accounts := [], transactions := [], company_name := "", fiscal_year := "" }

/-- One entry of the `parsing_details` log, one constructor per f-string the
source appends (sie_parser.py lines 82, 88, 109, 165, 169). -/
inductive Detail where
  | foundCompany (name : String)
  | foundFiscalYear (fy : String)
  | foundVerification (series number : String)
  | addedTransaction (account : String) (amount : ℚ)
  | transError (lineNum : Nat)
deriving DecidableEq

/-- The per-call loop state of `parse_sie_file`: the instance fields plus the
local variables `current_ver`, `parsing_ver`, `line_types`,
`parsing_details` (sie_parser.py lines 42–45). -/
structure LoopState where
  ps : ParserState
  current_ver : Option Ver
  parsing_ver : Bool
  line_types : List (String × Nat)
  parsing_details : List Detail
deriving DecidableEq

/-- The metadata dict returned by `parse_sie_file`
(sie_parser.py lines 185–191). -/
structure Metadata where
  company_name : String
  fiscal_year : String
  accounts : List (String × String)
  file_content : List (String × Nat)
  parsing_details : List Detail
deriving DecidableEq

/-- The `trans_parts` of a transaction line: strip braces and whitespace,
then apply the transaction tokenizer (sie_parser.py lines 115–136). -/
def transTokens (line : String) : List String :=
  tokenizeTrans (pyStrip (stripBraces line))

/-- The amount computation of a transaction line (sie_parser.py lines
146–150): default `0.0` when there is no 3rd token, otherwise convert the
3rd token after normalizing `,` to `.`; `none` models the uncaught
`ValueError` of a failing conversion. -/
def amountOf? (line : String) : Option ℚ :=
  if 3 ≤ (transTokens line).length then
    pyFloat? (replaceCommaDot (stripQuotes ((transTokens line).getD 2 "")))
  else some 0

/-- The transaction dict built for a line inside scope `v` with a
successfully converted amount `q` (sie_parser.py lines 142–162). -/
def transOf (line : String) (v : Ver) (q : ℚ) : Transaction :=
  let tp := transTokens line
  { date := stripQuotes (tp.getD 0 ""),
    account := stripQuotes (tp.getD 1 ""),
    amount := q,
    description :=
      if 3 < tp.length then stripQuotes (String.intercalate " " (tp.drop 3))
      else v.text,
    ver_series := v.series,
    ver_number := v.number }

/-- The transaction-line branch of the parse loop (sie_parser.py lines
111–169).  `line` is the stripped line (starting with a brace).  The whole
branch sits in a `try`; any exception (the `float` conversion failure, or
`current_ver` being `None`) lands in the `except` that appends an error
entry to `parsing_details` and drops the line. -/
def handleTrans (st : LoopState) (lineNum : Nat) (line : String) : LoopState :=
  match st.current_ver with
  | none =>
    -- `current_ver['series']` raises TypeError, caught by the except clause
    { st with parsing_details := st.parsing_details ++ [.transError lineNum] }
  | some v =>
    if 2 ≤ (transTokens line).length then
      match amountOf? line with
      | none =>
        -- `float(...)` raises ValueError, caught by the except clause
        { st with parsing_details := st.parsing_details ++ [.transError lineNum] }
      | some amount =>
        { st with
          ps := { st.ps with
                  transactions := st.ps.transactions ++ [transOf line v amount] },
          parsing_details :=
            st.parsing_details ++
              [.addedTransaction (transOf line v amount).account amount] }
    else st

/-- The `if identifier == ... / elif ...` dispatch of the parse loop
(sie_parser.py lines 79–173), applied after the `line_types` bump.
`line` is the stripped line and `parts` its tokens with head `identifier`. -/
def dispatch (st : LoopState) (lineNum : Nat) (line : String)
    (parts : List String) (identifier : String) : LoopState :=
  if identifier = "#FNAMN" then
    let name := stripQuotes (String.intercalate " " (parts.drop 1))
    { st with
      ps := { st.ps with company_name := name },
      parsing_details := st.parsing_details ++ [.foundCompany name] }
  else if identifier = "#RAR" then
    if 1 < parts.length then
      let fy := parts.getD 1 ""
      { st with
        ps := { st.ps with fiscal_year := fy },
        parsing_details := st.parsing_details ++ [.foundFiscalYear fy] }
    else
      -- `parts[2]` raises IndexError, caught: only a log warning, no change
      st
  else if identifier = "#KONTO" then
    if 2 ≤ parts.length then
      let num := parts.getD 1 ""
      let name := stripQuotes (String.intercalate " " (parts.drop 2))
      { st with ps := { st.ps with accounts := dictInsert st.ps.accounts num name } }
    else st
  else if identifier = "#VER" then
    let vp := (parts.drop 1).map stripQuotes
    let v : Ver :=
      { series := vp.getD 0 "", number := vp.getD 1 "", date := vp.getD 2 "",
        text := if 3 < vp.length then String.intercalate " " (vp.drop 3) else "" }
    { st with
      parsing_ver := true, current_ver := some v,
      parsing_details := st.parsing_details ++ [.foundVerification v.series v.number] }
  else if st.parsing_ver && startsWithChar line '\x7b' then
    handleTrans st lineNum line
  else if st.parsing_ver && startsWithChar line '\x7d' then
    { st with parsing_ver := false, current_ver := none }
  else st

/-- Process one raw line of the file (sie_parser.py lines 47–173): strip it,
skip blank lines, tokenize, count the first token in `line_types`, then
dispatch on it. -/
def processLine (st : LoopState) (lineNum : Nat) (raw : String) : LoopState :=
  let line := pyStrip raw
  if line = "" then st
  else
    match tokenizeLine line with
    | [] => st
    | identifier :: rest =>
      dispatch { st with line_types := dictBump st.line_types identifier }
        lineNum line (identifier :: rest) identifier

/-- Run the parse loop over the split lines, numbering them from `n`. -/
def runLines : LoopState → Nat → List String → LoopState
  | st, _, [] => st
  | st, n, l :: ls => runLines (processLine st n l) (n + 1) ls

/-! ### Encoding resolution (sie_parser.py lines 18–33) -/

/-- The three encodings tried, in source order. -/
inductive Encoding where
  | cp437
  | utf8
  | iso88591
deriving DecidableEq

/-- The cp437 single-byte decoding table for byte values 128–255 (bytes below
128 are ASCII); this is the mapping CPython's `cp437` codec uses.  The codec
is total: every byte value decodes. -/
def cp437High : List Nat :=
  [0xc7, 0xfc, 0xe9, 0xe2, 0xe4, 0xe0, 0xe5, 0xe7, 0xea, 0xeb, 0xe8, 0xef,
   0xee, 0xec, 0xc4, 0xc5, 0xc9, 0xe6, 0xc6, 0xf4, 0xf6, 0xf2, 0xfb, 0xf9,
   0xff, 0xd6, 0xdc, 0xa2, 0xa3, 0xa5, 0x20a7, 0x192, 0xe1, 0xed, 0xf3,
   0xfa, 0xf1, 0xd1, 0xaa, 0xba, 0xbf, 0x2310, 0xac, 0xbd, 0xbc, 0xa1,
   0xab, 0xbb, 0x2591, 0x2592, 0x2593, 0x2502, 0x2524, 0x2561, 0x2562,
   0x2556, 0x2555, 0x2563, 0x2551, 0x2557, 0x255d, 0x255c, 0x255b, 0x2510,
   0x2514, 0x2534, 0x252c, 0x251c, 0x2500, 0x253c, 0x255e, 0x255f, 0x255a,
   0x2554, 0x2569, 0x2566, 0x2560, 0x2550, 0x256c, 0x2567, 0x2568, 0x2564,
   0x2565, 0x2559, 0x2558, 0x2552, 0x2553, 0x256b, 0x256a, 0x2518, 0x250c,
   0x2588, 0x2584, 0x258c, 0x2590, 0x2580, 0x3b1, 0xdf, 0x393, 0x3c0,
   0x3a3, 0x3c3, 0xb5, 0x3c4, 0x3a6, 0x398, 0x3a9, 0x3b4, 0x221e, 0x3c6,
   0x3b5, 0x2229, 0x2261, 0xb1, 0x2265, 0x2264, 0x2320, 0x2321, 0xf7,
   0x2248, 0xb0, 0x2219, 0xb7, 0x221a, 0x207f, 0xb2, 0x25a0, 0xa0]

/-- Decode one byte with cp437 (total). -/
def cp437Char (b : Nat) : Char :=
  let b := b % 256
  if b < 128 then Char.ofNat b else Char.ofNat (cp437High.getD (b - 128) 0)

/-- Decoding `content.decode('cp437')`: a total single-byte decode. -/
def cp437Decode (bs : List Nat) : String :=
  String.mk (bs.map cp437Char)

/-- Decoding `content.decode('iso-8859-1')`: also a total single-byte decode (byte
value equals code point). -/
def iso88591Decode (bs : List Nat) : String :=
  String.mk (bs.map (fun b => Char.ofNat (b % 256)))

/-- Decoding `content.decode('utf-8')` (strict): standard UTF-8 decoding, `none` on a
malformed sequence (modelled without the overlong/surrogate rejections of
CPython — this attempt is dead code, since the total cp437 attempt precedes
it). -/
def utf8Decode? : List Nat → Option (List Char)
  | [] => some []
  | b :: rest =>
    let b := b % 256
    if b < 0x80 then
      (utf8Decode? rest).map (Char.ofNat b :: ·)
    else if b < 0xc0 then none
    else if b < 0xe0 then
      match rest with
      | b2 :: rest2 =>
        if 0x80 ≤ b2 % 256 && b2 % 256 < 0xc0 then
          (utf8Decode? rest2).map
            (Char.ofNat ((b - 0xc0) * 64 + (b2 % 256 - 0x80)) :: ·)
        else none
      | [] => none
    else if b < 0xf0 then
      match rest with
      | b2 :: b3 :: rest3 =>
        if (0x80 ≤ b2 % 256 && b2 % 256 < 0xc0) &&
           (0x80 ≤ b3 % 256 && b3 % 256 < 0xc0) then
          (utf8Decode? rest3).map
            (Char.ofNat ((b - 0xe0) * 4096 + (b2 % 256 - 0x80) * 64 +
              (b3 % 256 - 0x80)) :: ·)
        else none
      | _ => none
    else if b < 0xf8 then
      match rest with
      | b2 :: b3 :: b4 :: rest4 =>
        if (0x80 ≤ b2 % 256 && b2 % 256 < 0xc0) &&
           ((0x80 ≤ b3 % 256 && b3 % 256 < 0xc0) &&
            (0x80 ≤ b4 % 256 && b4 % 256 < 0xc0)) then
          (utf8Decode? rest4).map
            (Char.ofNat ((b - 0xf0) * 262144 + (b2 % 256 - 0x80) * 4096 +
              (b3 % 256 - 0x80) * 64 + (b4 % 256 - 0x80)) :: ·)
        else none
      | _ => none
    else none

/-- Dispatching `content.decode(encoding)` for each attempted encoding; `none` models
`UnicodeDecodeError`. -/
def decodeWith : Encoding → List Nat → Option String
  | .cp437, bs => some (cp437Decode bs)
  | .utf8, bs => (utf8Decode? bs).map String.mk
  | .iso88591, bs => some (iso88591Decode bs)

/-- The fixed attempt order `['cp437', 'utf-8', 'iso-8859-1']`
(sie_parser.py line 19). -/
def encodings : List Encoding := [.cp437, .utf8, .iso88591]

/-- The decode loop (sie_parser.py lines 23–30): first encoding that decodes
without error wins, together with which one it was. -/
def tryDecodeList : List Encoding → List Nat → Option (String × Encoding)
  | [], _ => none
  | e :: es, content =>
    match decodeWith e content with
    | some s => some (s, e)
    | none => tryDecodeList es content

/-- First successful decoding of the whole buffer. -/
def firstDecoding (content : List Nat) : Option (String × Encoding) :=
  tryDecodeList encodings content

/-- The decode phase including the `if not decoded_content: raise ValueError`
truthiness check (sie_parser.py lines 32–33): both a failed decode and an
empty decoded string lead to the raise (`none`). -/
def decodeContent (content : List Nat) : Option String :=
  match firstDecoding content with
  | none => none
  | some (s, _) => if s = "" then none else some s

/-- The method `SIEParser.parse_sie_file` (sie_parser.py lines 15–197): decode, split on
newlines, run the line loop, and return the transaction table, the metadata
dict, and the updated instance state.  `none` models the `ValueError` the
method raises.  The instance fields (`accounts`, `transactions`,
`company_name`, `fiscal_year`) are threaded explicitly as `self`. -/
def parse_sie_file (self : ParserState) (content : List Nat) :
    Option (List Transaction × Metadata × ParserState) :=
  match decodeContent content with
  | none => none
  | some decoded =>
    let lines := pySplitLines decoded
    let st0 : LoopState :=
      { ps := self, current_ver := none, parsing_ver := false,
        line_types := [], parsing_details := [] }
    let fin := runLines st0 1 lines
    some (fin.ps.transactions,
      { company_name := fin.ps.company_name,
        fiscal_year := fin.ps.fiscal_year,
        accounts := fin.ps.accounts,
        file_content := fin.line_types,
        parsing_details := fin.parsing_details },
      fin.ps)

/-! ### Flow summarizer (src/sankey_generator.py) -/

/-- One link of the Sankey figure.  The source keeps four parallel lists
`source`/`target`/`value`/`color`; they are modelled as one list of
records. -/
structure Link where
  source : Nat
  target : Nat
  value : ℚ
  color : String
deriving DecidableEq

/-- The node labels and links of the generated figure (the plotly layout
decoration carries no further data). -/
structure SankeyFigure where
  nodes : List String
  links : List Link
deriving DecidableEq

/-- The `SankeyGenerator` object: the transaction table and the account
mapping passed to `__init__`. -/
structure SankeyGenerator where
  df : List Transaction
  accounts : List (String × String)
deriving DecidableEq

/-- Net amount of one account:
`df.groupby('account')['amount'].sum()` for one group. -/
def sumFor (df : List Transaction) (a : String) : ℚ :=
  (df.filter (fun t => t.account = a)).foldl (fun acc t => acc + t.amount) 0

/-- Code-point lexicographic comparison of char lists (the order Python uses
on `str`, hence the order pandas sorts group keys with). -/
def charsLtb : List Char → List Char → Bool
  | [], [] => false
  | [], _ :: _ => true
  | _ :: _, [] => false
  | c :: cs, d :: ds =>
    if c.toNat < d.toNat then true
    else if d.toNat < c.toNat then false
    else charsLtb cs ds

/-- Python `a < b` on strings. -/
def strLtb (a b : String) : Bool := charsLtb a.data b.data

/-- Ascending insertion into a sorted list of strings. -/
def insertSorted (a : String) : List String → List String
  | [] => [a]
  | b :: rest => if strLtb b a then b :: insertSorted a rest else a :: b :: rest

/-- Insertion sort, ascending. -/
def sortKeys : List String → List String
  | [] => []
  | a :: rest => insertSorted a (sortKeys rest)

/-- The index of `df.groupby('account')['amount'].sum()`: the distinct
account values in ascending order (pandas `groupby` sorts its keys), paired
with each group's sum. -/
def accountFlows (df : List Transaction) : List (String × ℚ) :=
  (sortKeys (df.map (fun t => t.account)).dedup).map (fun a => (a, sumFor df a))

/-- Python `list.index` returning the first index, `none` modelling the
`ValueError` when the element is absent. -/
def listIndexOf? : List String → String → Option Nat
  | [], _ => none
  | a :: rest, x =>
    if a = x then some 0 else (listIndexOf? rest x).map (· + 1)

/-- The rgba color attached to positive links. -/
def greenColor : String := "rgba(44, 160, 44, 0.5)"

/-- The rgba color attached to negative links. -/
def redColor : String := "rgba(214, 39, 40, 0.5)"

/-- The node label used when looking up an account while building links:
`f"-account- - -self.accounts.get(account, 'Okänt konto')-"`. -/
def nodeLabel (accounts : List (String × String)) (a : String) : String :=
  a ++ " - " ++ dictGetD accounts a "Okänt konto"

/-- The node list of the figure (sankey_generator.py lines 28–33): the
synthetic opening-balance node first, then one node per entry of the account
mapping, in mapping order. -/
def figNodes (g : SankeyGenerator) : List String :=
  "Ingående balans" :: g.accounts.map (fun kv => kv.1 ++ " - " ++ kv.2)

/-- The two link-building loops (sankey_generator.py lines 36–54): for each
flow, look up the opening node and the account node by label with
`nodes.index` (a failed lookup raises `ValueError`, modelled by `none`) and
append one link with the absolute amount as value. -/
def mkLinks (nodes : List String) (accounts : List (String × String))
    (flows : List (String × ℚ)) (positive : Bool) : Option (List Link) :=
  match flows with
  | [] => some []
  | (a, s) :: rest =>
    match listIndexOf? nodes "Ingående balans",
          listIndexOf? nodes (nodeLabel accounts a) with
    | some openIdx, some accIdx =>
      let link : Link :=
        if positive then
          { source := openIdx, target := accIdx, value := |s|, color := greenColor }
        else
          { source := accIdx, target := openIdx, value := |s|, color := redColor }
      (mkLinks nodes accounts rest positive).map (link :: ·)
    | _, _ => none

/-- The method `SankeyGenerator.generate_sankey_data` (sankey_generator.py lines
10–79): group amounts by account, split into positive and negative flows,
build the node list (opening-balance node first, then one node per entry of
the account mapping), then build the links.  `none` models the uncaught
`ValueError` from a failed `nodes.index` lookup. -/
def generate_sankey_data (g : SankeyGenerator) : Option SankeyFigure :=
  let flows := accountFlows g.df
  let positive_flows := flows.filter (fun p => 0 < p.2)
  let negative_flows := flows.filter (fun p => p.2 < 0)
  match mkLinks (figNodes g) g.accounts positive_flows true,
        mkLinks (figNodes g) g.accounts negative_flows false with
  | some pl, some nl => some { nodes := figNodes g, links := pl ++ nl }
  | _, _ => none

/-! ### Concrete inputs used by witnesses and counterexamples -/

/-- The byte buffer of an ASCII string (for ASCII content the cp437 bytes
are exactly the code points). -/
def strBytes (s : String) : List Nat :=
  s.data.map Char.toNat

/-- The fresh per-call loop state over the fresh instance state. -/
def freshLoop : LoopState :=
  { ps := initialParser, current_ver := none, parsing_ver := false,
    line_types := [], parsing_details := [] }

/-- A loop state inside an open verification scope `A 1 20230101 "T"`. -/
def scopedLoop : LoopState :=
  { ps := initialParser,
    current_ver := some { series := "A", number := "1", date := "20230101", text := "T" },
    parsing_ver := true, line_types := [], parsing_details := [] }

/-- A file whose only transaction line has the unconvertible amount `abc`. -/
def badAmountInput : List Nat :=
  strBytes "#VER A 1 20230101 \"T\"\n\x7b20230101 1930 abc\x7d\n\x7d"

/-- A one-transaction file (account 1930, amount 100). -/
def fileA : List Nat :=
  strBytes "#VER A 1 20230101 \"T\"\n\x7b20230101 1930 100\x7d\n\x7d"

/-- A one-transaction file (account 3000, amount 200). -/
def fileB : List Nat :=
  strBytes "#VER B 2 20230201 \"U\"\n\x7b20230201 3000 200\x7d\n\x7d"

/-- The verification context produced by
`#VER A 1 20230101 "Monthly close"`. -/
def verMonthly : Ver :=
  { series := "A", number := "1", date := "20230101", text := "Monthly close" }

/-- A loop state inside the `verMonthly` scope. -/
def monthlyLoop : LoopState :=
  { ps := initialParser, current_ver := some verMonthly, parsing_ver := true,
    line_types := [], parsing_details := [] }

/-- A generator whose flows all belong to mapped accounts. -/
def demoGen : SankeyGenerator :=
  { df := [{ date := "20230115", account := "1930", amount := 1000,
             description := "Invoice", ver_series := "A", ver_number := "1" },
           { date := "20230115", account := "3000", amount := -1000,
             description := "Invoice", ver_series := "A", ver_number := "1" }],
    accounts := [("1930", "Bank"), ("3000", "Sales")] }

/-! ### Helper lemmas -/

/-- A nonempty pending token is eventually emitted as (a prefix of) the head
token of the tokenizer's output. -/
theorem tokAux_head (cs : List Char) : ∀ (cur : List Char) (inQ : Bool),
    cur ≠ [] → ∃ t rest, tokAux cs cur inQ = (cur ++ t) :: rest := by
  induction cs with
  | nil =>
    intro cur inQ h
    refine ⟨[], [], ?_⟩
    simp [tokAux, h]
  | cons c cs ih =>
    intro cur inQ h
    simp only [tokAux]
    by_cases hq : c = '"'
    · rw [if_pos hq]
      exact ih cur (!inQ) h
    · rw [if_neg hq]
      by_cases hs : (isSpace c && !inQ) = true
      · rw [if_pos hs, if_neg (by simpa using h)]
        exact ⟨[], tokAux cs [] inQ, by simp⟩
      · rw [if_neg hs]
        obtain ⟨t, rest, ht⟩ := ih (cur ++ [c]) inQ (by simp)
        exact ⟨[c] ++ t, rest, by rw [ht]; simp⟩

/-- The test `startsWithChar` exposes the head character. -/
theorem startsWithChar_data (s : String) (c : Char)
    (h : startsWithChar s c = true) : ∃ ds, s.data = c :: ds := by
  unfold startsWithChar at h
  rcases hd : s.data with _ | ⟨d, ds⟩
  · rw [hd] at h; cases h
  · rw [hd] at h
    simp only [decide_eq_true_eq] at h
    exact ⟨ds, by rw [h]⟩

/-- A line that starts with a given non-quote, non-space character tokenizes
to a head token starting with that character. -/
theorem tokenizeLine_head (s : String) (c : Char)
    (hq : c ≠ '"') (hsp : isSpace c = false)
    (h : startsWithChar s c = true) :
    ∃ t rest, tokenizeLine s = String.mk (c :: t) :: rest := by
  obtain ⟨ds, hds⟩ := startsWithChar_data s c h
  unfold tokenizeLine
  rw [hds]
  have h1 : tokAux (c :: ds) [] false = tokAux ds [c] false := by
    simp [tokAux, hq, hsp]
  obtain ⟨t, rest, ht⟩ := tokAux_head ds [c] false (by simp)
  refine ⟨t, rest.map String.mk, ?_⟩
  rw [h1, ht]
  simp

/-- A string starting with one character is not a string starting with a
different one. -/
theorem ne_of_startsWithChar {s lit : String} {c : Char}
    (h1 : startsWithChar s c = true) (h2 : startsWithChar lit c = false) :
    s ≠ lit := by
  intro he
  rw [he, h2] at h1
  cases h1

/-- The string `String.mk (c :: t)` starts with `c`. -/
theorem startsWithChar_mk (c : Char) (t : List Char) :
    startsWithChar (String.mk (c :: t)) c = true := by
  simp [startsWithChar]

/-- A string starting with a character has data, hence is not empty. -/
theorem ne_empty_of_startsWithChar {s : String} {c : Char}
    (h : startsWithChar s c = true) : s ≠ "" := by
  intro he
  rw [he] at h
  cases h

/-- A string cannot start with two different characters. -/
theorem startsWithChar_false_of_ne {s : String} {c c' : Char}
    (h : startsWithChar s c = true) (hne : c' ≠ c) :
    startsWithChar s c' = false := by
  obtain ⟨ds, hds⟩ := startsWithChar_data s c h
  unfold startsWithChar
  rw [hds]
  simpa using fun he => hne he.symm

/-- Processing a nonblank line that starts with a brace always goes through
the `line_types` bump and then the dispatch with a brace-headed
identifier. -/
theorem processLine_brace (st : LoopState) (n : Nat) (raw : String)
    (hbr : startsWithChar (pyStrip raw) '\x7b' = true) :
    ∃ identifier rest,
      tokenizeLine (pyStrip raw) = identifier :: rest ∧
      startsWithChar identifier '\x7b' = true ∧
      processLine st n raw =
        dispatch { st with line_types := dictBump st.line_types identifier }
          n (pyStrip raw) (identifier :: rest) identifier := by
  obtain ⟨t, rest, htok⟩ :=
    tokenizeLine_head (pyStrip raw) '\x7b' (by decide) (by decide) hbr
  refine ⟨String.mk ('\x7b' :: t), rest, htok, startsWithChar_mk _ _, ?_⟩
  have hne : pyStrip raw ≠ "" := ne_empty_of_startsWithChar hbr
  simp only [processLine]
  rw [if_neg hne, htok]

/-- On a brace-headed identifier the dispatch reaches the transaction branch
exactly when a verification scope is open. -/
theorem dispatch_brace (st : LoopState) (n : Nat) (line : String)
    (parts : List String) (identifier : String)
    (hid : startsWithChar identifier '\x7b' = true)
    (hline : startsWithChar line '\x7b' = true) :
    dispatch st n line parts identifier =
      if st.parsing_ver then handleTrans st n line else st := by
  unfold dispatch
  rw [if_neg (ne_of_startsWithChar hid (by decide)),
      if_neg (ne_of_startsWithChar hid (by decide)),
      if_neg (ne_of_startsWithChar hid (by decide)),
      if_neg (ne_of_startsWithChar hid (by decide)),
      hline, startsWithChar_false_of_ne hline (by decide)]
  cases hpv : st.parsing_ver <;> simp

/-- C2: a transaction line (a line whose stripped form begins with a brace)
encountered while no verification scope is open (`parsing_ver` false) leaves
the parser state unchanged except for the per-record-type diagnostic counter
`line_types`, which records the line under its first token.  In particular
no transaction is appended (the line never appears in the output transaction
list) and no stale verification context is consulted. -/
theorem orphan_transaction_line_rejected (st : LoopState) (n : Nat)
    (raw : String) (hpv : st.parsing_ver = false)
    (hbr : startsWithChar (pyStrip raw) '\x7b' = true) :
    ∃ identifier rest,
      tokenizeLine (pyStrip raw) = identifier :: rest ∧
      startsWithChar identifier '\x7b' = true ∧
      processLine st n raw =
        { st with line_types := dictBump st.line_types identifier } := by
  obtain ⟨identifier, rest, htok, hid, heq⟩ := processLine_brace st n raw hbr
  refine ⟨identifier, rest, htok, hid, ?_⟩
  rw [heq, dispatch_brace _ _ _ _ _ hid hbr]
  simp [hpv]

/-- Witness for `orphan_transaction_line_rejected`: an orphan transaction
line on the fresh state is counted but produces no transaction. -/
theorem orphan_transaction_line_rejected_witness :
    processLine freshLoop 1 "\x7b20230101 1930 100\x7d" =
      { freshLoop with line_types := [("\x7b20230101", 1)] } := by
  obtain ⟨identifier, rest, htok, hid, heq⟩ :=
    orphan_transaction_line_rejected freshLoop 1 "\x7b20230101 1930 100\x7d"
      rfl (by decide)
  have hcomp :
      tokenizeLine (pyStrip "\x7b20230101 1930 100\x7d") =
        "\x7b20230101" :: ["1930", "100\x7d"] := by decide
  rw [hcomp] at htok
  injection htok with h1 h2
  rw [heq, ← h1]
  rfl

/-- Processing a transaction line while a scope is open reduces to the
transaction branch (after the `line_types` bump). -/
theorem processLine_scoped_brace (st : LoopState) (n : Nat) (raw : String)
    (hpv : st.parsing_ver = true)
    (hbr : startsWithChar (pyStrip raw) '\x7b' = true) :
    ∃ identifier rest,
      tokenizeLine (pyStrip raw) = identifier :: rest ∧
      processLine st n raw =
        handleTrans { st with line_types := dictBump st.line_types identifier }
          n (pyStrip raw) := by
  obtain ⟨identifier, rest, htok, hid, heq⟩ := processLine_brace st n raw hbr
  refine ⟨identifier, rest, htok, ?_⟩
  rw [heq, dispatch_brace _ _ _ _ _ hid hbr]
  simp [hpv]

/-- The transaction branch when the amount conversion fails: the error is
logged and the line contributes no transaction. -/
theorem handleTrans_conv_fail (st : LoopState) (n : Nat) (line : String)
    (v : Ver) (hcv : st.current_ver = some v)
    (h2 : 2 ≤ (transTokens line).length)
    (hf : amountOf? line = none) :
    handleTrans st n line =
      { st with parsing_details := st.parsing_details ++ [.transError n] } := by
  unfold handleTrans
  rw [hcv]
  simp only [if_pos h2, hf]

/-- The transaction branch when the amount converts (or is absent): exactly
the transaction `transOf line v q` is appended. -/
theorem handleTrans_ok (st : LoopState) (n : Nat) (line : String)
    (v : Ver) (q : ℚ) (hcv : st.current_ver = some v)
    (h2 : 2 ≤ (transTokens line).length)
    (hq : amountOf? line = some q) :
    handleTrans st n line =
      { st with
        ps := { st.ps with
                transactions := st.ps.transactions ++ [transOf line v q] },
        parsing_details :=
          st.parsing_details ++
            [.addedTransaction (transOf line v q).account q] } := by
  unfold handleTrans
  rw [hcv]
  simp only [if_pos h2, hq]

/-- C1 (amended): for a transaction line inside an open verification scope
with at least 2 tokens, a present 3rd token is converted after normalizing
`,` to `.` (`amountOf?`), and an absent 3rd token defaults the amount to 0;
when the conversion succeeds the line is appended with that amount, but when
it fails an error diagnostic is appended to `parsing_details` and the line
is dropped from the output (it is not kept with amount 0.0). -/
theorem transaction_amount_conversion (st : LoopState) (n : Nat)
    (raw : String) (v : Ver)
    (hpv : st.parsing_ver = true) (hcv : st.current_ver = some v)
    (hbr : startsWithChar (pyStrip raw) '\x7b' = true)
    (h2 : 2 ≤ (transTokens (pyStrip raw)).length) :
    (amountOf? (pyStrip raw) =
      (if 3 ≤ (transTokens (pyStrip raw)).length then
        pyFloat? (replaceCommaDot (stripQuotes ((transTokens (pyStrip raw)).getD 2 "")))
      else some 0)) ∧
    (∀ q, amountOf? (pyStrip raw) = some q →
      (processLine st n raw).ps.transactions =
        st.ps.transactions ++ [transOf (pyStrip raw) v q]) ∧
    (amountOf? (pyStrip raw) = none →
      (processLine st n raw).ps.transactions = st.ps.transactions ∧
      (processLine st n raw).parsing_details =
        st.parsing_details ++ [.transError n]) := by
  obtain ⟨identifier, rest, htok, heq⟩ := processLine_scoped_brace st n raw hpv hbr
  refine ⟨rfl, ?_, ?_⟩
  · intro q hq
    rw [heq,
      handleTrans_ok { st with line_types := dictBump st.line_types identifier }
        n (pyStrip raw) v q hcv h2 hq]
  · intro hf
    rw [heq,
      handleTrans_conv_fail
        { st with line_types := dictBump st.line_types identifier }
        n (pyStrip raw) v hcv h2 hf]
    exact ⟨rfl, rfl⟩

/-- Witness for `transaction_amount_conversion`: inside an open scope, a
line with comma-decimal amount `1234,56` is appended with amount
`1234.56`, and a line with amount `abc` is dropped with an error logged. -/
theorem transaction_amount_conversion_witness :
    (processLine scopedLoop 1 "\x7b20230101 1930 1234,56\x7d").ps.transactions =
      [transOf (pyStrip "\x7b20230101 1930 1234,56\x7d")
        { series := "A", number := "1", date := "20230101", text := "T" }
        (30864/25 : ℚ)] ∧
    (processLine scopedLoop 2 "\x7b20230101 1930 abc\x7d").ps.transactions = [] ∧
    (processLine scopedLoop 2 "\x7b20230101 1930 abc\x7d").parsing_details =
      [Detail.transError 2] := by
  have h1 := transaction_amount_conversion scopedLoop 1
    "\x7b20230101 1930 1234,56\x7d"
    { series := "A", number := "1", date := "20230101", text := "T" }
    rfl rfl (by decide) (by decide)
  have h2 := transaction_amount_conversion scopedLoop 2
    "\x7b20230101 1930 abc\x7d"
    { series := "A", number := "1", date := "20230101", text := "T" }
    rfl rfl (by decide) (by decide)
  refine ⟨?_, ?_, ?_⟩
  · rw [h1.2.1 (30864/25 : ℚ) (by rfl)]
    rfl
  · rw [(h2.2.2 (by rfl)).1]
    rfl
  · rw [(h2.2.2 (by rfl)).2]
    rfl

/-- C1 is false as stated: in the file `badAmountInput` the transaction line
has the unconvertible amount `abc`, and the parse output contains no
transaction at all (the line is dropped), instead of a transaction with
amount 0.0; only the error diagnostic is recorded. -/
theorem amount_failure_line_dropped_cex :
    (parse_sie_file initialParser badAmountInput).map (fun r => r.1) =
      some [] ∧
    (parse_sie_file initialParser badAmountInput).map
        (fun r => r.2.1.parsing_details) =
      some [Detail.foundVerification "A" "1", Detail.transError 2] := by
  exact ⟨by rfl, by rfl⟩

/-- C8: a `#VER` header whose text is a quoted span yields verification text
with the quotes stripped and internal spaces preserved verbatim, and a
transaction line inside the scope that produces a transaction takes exactly
that text as its description when it has fewer than 4 tokens, and the 4th
and later tokens joined when it has at least 4. -/
theorem ver_text_inherited (st : LoopState) (n : Nat) (raw : String) (v : Ver)
    (hpv : st.parsing_ver = true) (hcv : st.current_ver = some v)
    (hbr : startsWithChar (pyStrip raw) '\x7b' = true)
    (h2 : 2 ≤ (transTokens (pyStrip raw)).length)
    (q : ℚ) (hq : amountOf? (pyStrip raw) = some q) :
    (∀ st' : LoopState, ∀ n' : Nat,
      (processLine st' n' "#VER A 1 20230101 \"Monthly close\"").current_ver =
        some { series := "A", number := "1", date := "20230101",
               text := "Monthly close" }) ∧
    (processLine st n raw).ps.transactions =
      st.ps.transactions ++ [transOf (pyStrip raw) v q] ∧
    ((transTokens (pyStrip raw)).length < 4 →
      (transOf (pyStrip raw) v q).description = v.text) ∧
    (4 ≤ (transTokens (pyStrip raw)).length →
      (transOf (pyStrip raw) v q).description =
        stripQuotes (String.intercalate " "
          ((transTokens (pyStrip raw)).drop 3))) := by
  obtain ⟨identifier, rest, htok, heq⟩ := processLine_scoped_brace st n raw hpv hbr
  refine ⟨fun st' n' => rfl, ?_, ?_, ?_⟩
  · rw [heq,
      handleTrans_ok { st with line_types := dictBump st.line_types identifier }
        n (pyStrip raw) v q hcv h2 hq]
  · intro hlt
    simp only [transOf]
    rw [if_neg (by omega)]
  · intro hge
    simp only [transOf]
    rw [if_pos (by omega)]

/-- Witness for `ver_text_inherited`: inside the `Monthly close` scope a
2-token transaction line inherits exactly the text `Monthly close`. -/
theorem ver_text_inherited_witness :
    (processLine monthlyLoop 2 "\x7b20230101 1930\x7d").ps.transactions =
      [{ date := "20230101", account := "1930", amount := 0,
         description := "Monthly close", ver_series := "A",
         ver_number := "1" }] := by
  have h := ver_text_inherited monthlyLoop 2 "\x7b20230101 1930\x7d" verMonthly
    rfl rfl (by decide) (by decide) 0 (by rfl)
  rw [h.2.1]
  rfl

/-- Lookup after an upsert finds the upserted value. -/
theorem dictGet?_dictInsert (d : List (String × String)) (k v : String) :
    dictGet? (dictInsert d k v) k = some v := by
  induction d with
  | nil => simp [dictInsert, dictGet?]
  | cons kv rest ih =>
    obtain ⟨k', v'⟩ := kv
    by_cases h : k' = k
    · simp [dictInsert, dictGet?, h]
    · simp only [dictInsert, if_neg h]
      simp only [dictGet?, if_neg h]
      exact ih

/-- C6 (amended): a `#KONTO` line needs only one token after the identifier
(the account number); with at least one the account is upserted with
number := token 2 and name := the remaining tokens joined (empty when there
is no name token), with a bare `#KONTO` silently skipped (no diagnostic);
and a later declaration for the same number overwrites the earlier name
(last write wins). -/
theorem konto_upsert (st : LoopState) (n : Nat) (raw : String)
    (rest : List String)
    (htok : tokenizeLine (pyStrip raw) = "#KONTO" :: rest) :
    (1 ≤ rest.length →
      (processLine st n raw).ps.accounts =
        dictInsert st.ps.accounts (rest.getD 0 "")
          (stripQuotes (String.intercalate " " (rest.drop 1)))) ∧
    (rest = [] →
      processLine st n raw =
        { st with line_types := dictBump st.line_types "#KONTO" }) ∧
    (∀ d k v₁ v₂,
      dictGet? (dictInsert (dictInsert d k v₁) k v₂) k = some v₂) := by
  have hne : pyStrip raw ≠ "" := by
    intro he
    rw [he] at htok
    exact List.noConfusion htok
  refine ⟨?_, ?_, fun d k v₁ v₂ => dictGet?_dictInsert _ k v₂⟩
  · intro h1
    simp only [processLine]
    rw [if_neg hne, htok]
    simp only [dispatch]
    rw [if_pos trivial, if_pos (show 2 ≤ ("#KONTO" :: rest).length by simp; omega)]
    rfl
  · intro h0
    subst h0
    simp only [processLine]
    rw [if_neg hne, htok]
    simp only [dispatch]
    rw [if_pos trivial,
      if_neg (by decide : ¬(2 ≤ (["#KONTO"] : List String).length))]
    rfl

/-- Witness for `konto_upsert`: the spec's account declaration example and a
rename, showing the upsert and last-write-wins. -/
theorem konto_upsert_witness :
    (processLine freshLoop 1 "#KONTO 1930 \"Company bank account\"").ps.accounts =
      [("1930", "Company bank account")] ∧
    dictGet? (dictInsert (dictInsert [] "1930" "Company bank account")
      "1930" "Bank account renamed") "1930" = some "Bank account renamed" := by
  have h := konto_upsert freshLoop 1 "#KONTO 1930 \"Company bank account\""
    ["1930", "Company bank account"] (by rfl)
  exact ⟨by rw [h.1 (by decide)]; rfl,
    h.2.2 [] "1930" "Company bank account" "Bank account renamed"⟩

/-- C6 is false as stated: `#KONTO 1930` has only one token after the
identifier, yet it is not skipped — the account mapping gains the entry
`1930` with an empty name. -/
theorem konto_single_token_accepted_cex :
    (parse_sie_file initialParser (strBytes "#KONTO 1930")).map
        (fun r => r.2.1.accounts) =
      some [("1930", "")] := by
  rfl

/-- C3: the behaviour at the empty byte buffer.  The first supported
encoding (cp437) decodes it — to the empty string — so by the claim the
parse must not raise; but the source's `if not decoded_content` truthiness
check conflates the empty decoded string with a decode failure and raises
`ValueError("Could not decode file with any supported encoding")`, so
`parse_sie_file` fails on input that every supported encoding decodes. -/
theorem empty_input_decode_bug :
    decodeWith Encoding.cp437 [] = some "" ∧
    firstDecoding [] = some ("", Encoding.cp437) ∧
    decodeContent [] = none ∧
    parse_sie_file initialParser [] = none := by
  exact ⟨rfl, rfl, rfl, rfl⟩

/-- C10: for every non-empty byte buffer the first attempted encoding
(cp437, a total single-byte codec) succeeds and is used for the whole file;
the utf-8 and iso-8859-1 attempts and the no-encoding failure branch are
never reached, and the parse does not raise. -/
theorem cp437_always_first (self : ParserState) (content : List Nat)
    (h : content ≠ []) :
    firstDecoding content = some (cp437Decode content, Encoding.cp437) ∧
    decodeContent content = some (cp437Decode content) ∧
    (parse_sie_file self content).isSome = true := by
  have h1 : firstDecoding content = some (cp437Decode content, Encoding.cp437) := rfl
  have hne : cp437Decode content ≠ "" := by
    intro he
    have hdata : content.map cp437Char = ([] : List Char) :=
      congrArg String.data he
    exact h (List.map_eq_nil_iff.mp hdata)
  have h2 : decodeContent content = some (cp437Decode content) := by
    unfold decodeContent
    rw [h1]
    dsimp only
    rw [if_neg hne]
  refine ⟨h1, h2, ?_⟩
  unfold parse_sie_file
  rw [h2]
  rfl

/-- Witness for `cp437_always_first` at the one-byte buffer `[35]`
(the `#` character). -/
theorem cp437_always_first_witness :
    firstDecoding [35] = some (cp437Decode [35], Encoding.cp437) ∧
    decodeContent [35] = some (cp437Decode [35]) ∧
    (parse_sie_file initialParser [35]).isSome = true :=
  cp437_always_first initialParser [35] (by decide)

/-- C4 (amended): whenever a figure is produced, its node list is exactly
the synthetic opening-balance node first, followed by one node per entry of
the accounts mapping, in mapping (insertion) order — regardless of which
accounts occur in the transactions or of their aggregated flows. -/
theorem nodes_structure (g : SankeyGenerator) (fig : SankeyFigure)
    (h : generate_sankey_data g = some fig) :
    fig.nodes =
      "Ingående balans" :: g.accounts.map (fun kv => kv.1 ++ " - " ++ kv.2) ∧
    fig.nodes.length = g.accounts.length + 1 := by
  simp only [generate_sankey_data] at h
  split at h
  · rename_i pl nl hp hn
    injection h with h
    subst h
    refine ⟨rfl, ?_⟩
    simp [figNodes]
  · exact absurd h (by simp)

/-- Witness for `nodes_structure` at a concrete generator. -/
theorem nodes_structure_witness :
    (⟨["Ingående balans", "1000 - X"], []⟩ : SankeyFigure).nodes =
      "Ingående balans" ::
        ([("1000", "X")].map (fun kv => kv.1 ++ " - " ++ kv.2)) ∧
    (⟨["Ingående balans", "1000 - X"], []⟩ : SankeyFigure).nodes.length =
      [("1000", "X")].length + 1 :=
  nodes_structure { df := [], accounts := [("1000", "X")] }
    ⟨["Ingående balans", "1000 - X"], []⟩ (by rfl)

/-- C4 is false as stated: an account present in the mapping but absent from
the transactions (so with no flow at all) still contributes a node. -/
theorem node_without_transactions_cex :
    generate_sankey_data { df := [], accounts := [("1000", "X")] } =
      some { nodes := ["Ingående balans", "1000 - X"], links := [] } := by
  rfl

/-- C9: `generate_sankey_data` is deterministic — it depends only on the
transaction table and account mapping it was constructed with (the source
method only reads `self.df` and `self.accounts`; its embedding is a pure
function, so repeated calls yield identical node lists and link weights and
the inputs are not mutated). -/
theorem summarize_deterministic (g₁ g₂ : SankeyGenerator)
    (hdf : g₁.df = g₂.df) (hacc : g₁.accounts = g₂.accounts) :
    generate_sankey_data g₁ = generate_sankey_data g₂ := by
  cases g₁
  cases g₂
  cases hdf
  cases hacc
  rfl

/-- Witness for `summarize_deterministic`. -/
theorem summarize_deterministic_witness :
    generate_sankey_data demoGen = generate_sankey_data demoGen :=
  summarize_deterministic demoGen demoGen rfl rfl

/-- Inserting into a sorted list is a permutation of prepending. -/
theorem insertSorted_perm (a : String) (l : List String) :
    List.Perm (insertSorted a l) (a :: l) := by
  induction l with
  | nil => exact List.Perm.refl _
  | cons b rest ih =>
    simp only [insertSorted]
    by_cases hb : strLtb b a = true
    · rw [if_pos hb]
      exact (ih.cons b).trans (List.Perm.swap a b rest)
    · rw [if_neg hb]

/-- Insertion sort permutes its input. -/
theorem sortKeys_perm (l : List String) : List.Perm (sortKeys l) l := by
  induction l with
  | nil => exact List.Perm.refl _
  | cons a rest ih =>
    exact (insertSorted_perm a (sortKeys rest)).trans (ih.cons a)

/-- A successful dictionary lookup exposes a member. -/
theorem dictGet?_mem (d : List (String × String)) (k v : String)
    (h : dictGet? d k = some v) : (k, v) ∈ d := by
  induction d with
  | nil => cases h
  | cons kv rest ih =>
    obtain ⟨k', v'⟩ := kv
    by_cases he : k' = k
    · subst he
      have h' : some v' = some v := by simpa [dictGet?] using h
      injection h' with h''
      rw [← h'']
      exact List.mem_cons_self _ _
    · simp only [dictGet?, if_neg he] at h
      exact List.mem_cons_of_mem _ (ih h)

/-- Python `list.index` succeeds on members. -/
theorem listIndexOf?_isSome_of_mem {l : List String} {x : String}
    (h : x ∈ l) : (listIndexOf? l x).isSome = true := by
  induction l with
  | nil => cases h
  | cons a rest ih =>
    by_cases he : a = x
    · simp [listIndexOf?, he]
    · rcases List.mem_cons.mp h with he' | hm
      · exact absurd he'.symm he
      · simp [listIndexOf?, he, ih hm]

/-- When every flow's account label resolves in the node list, the positive
link-building loop succeeds and appends exactly one opening→account link per
flow, with the absolute amount as value. -/
theorem mkLinks_spec_pos (nodes : List String)
    (accounts : List (String × String))
    (hopen : listIndexOf? nodes "Ingående balans" = some 0)
    (flows : List (String × ℚ))
    (h : ∀ p ∈ flows,
      (listIndexOf? nodes (nodeLabel accounts p.1)).isSome = true) :
    mkLinks nodes accounts flows true =
      some (flows.map (fun p =>
        { source := 0,
          target := (listIndexOf? nodes (nodeLabel accounts p.1)).getD 0,
          value := |p.2|, color := greenColor })) := by
  induction flows with
  | nil => rfl
  | cons p rest ih =>
    obtain ⟨a, s⟩ := p
    obtain ⟨i, hi⟩ := Option.isSome_iff_exists.mp
      (h (a, s) (List.mem_cons_self _ _))
    simp only [mkLinks]
    rw [hopen, hi]
    dsimp only
    rw [ih (fun q hq => h q (List.mem_cons_of_mem _ hq))]
    simp [hi]

/-- The negative-flow analogue of `mkLinks_spec_pos`: one account→opening
link per flow. -/
theorem mkLinks_spec_neg (nodes : List String)
    (accounts : List (String × String))
    (hopen : listIndexOf? nodes "Ingående balans" = some 0)
    (flows : List (String × ℚ))
    (h : ∀ p ∈ flows,
      (listIndexOf? nodes (nodeLabel accounts p.1)).isSome = true) :
    mkLinks nodes accounts flows false =
      some (flows.map (fun p =>
        { source := (listIndexOf? nodes (nodeLabel accounts p.1)).getD 0,
          target := 0, value := |p.2|, color := redColor })) := by
  induction flows with
  | nil => rfl
  | cons p rest ih =>
    obtain ⟨a, s⟩ := p
    obtain ⟨i, hi⟩ := Option.isSome_iff_exists.mp
      (h (a, s) (List.mem_cons_self _ _))
    simp only [mkLinks]
    rw [hopen, hi]
    dsimp only
    rw [ih (fun q hq => h q (List.mem_cons_of_mem _ hq))]
    simp [hi]

/-- C5 (amended): when every account with a non-zero aggregated flow is
present in the accounts mapping, the generator succeeds and produces, in
order, exactly one opening→account link of weight `sum` per account with
positive sum and exactly one account→opening link of weight `-sum` per
account with negative sum; zero-sum accounts produce no link; each distinct
account of the transactions occurs exactly once among the flows, with the
group's signed sum.  (When an account with non-zero sum is missing from the
mapping, the `Okänt konto` label it builds is not in the node list and the
lookup raises instead — see the counterexample.) -/
theorem summarize_edges (g : SankeyGenerator)
    (h : ∀ p ∈ accountFlows g.df, p.2 ≠ 0 →
      (dictGet? g.accounts p.1).isSome = true) :
    ∃ fig, generate_sankey_data g = some fig ∧
      fig.links =
        ((accountFlows g.df).filter (fun p => 0 < p.2)).map
          (fun p =>
            { source := 0,
              target := (listIndexOf? (figNodes g)
                (nodeLabel g.accounts p.1)).getD 0,
              value := p.2, color := greenColor }) ++
        ((accountFlows g.df).filter (fun p => p.2 < 0)).map
          (fun p =>
            { source := (listIndexOf? (figNodes g)
                (nodeLabel g.accounts p.1)).getD 0,
              target := 0, value := -p.2, color := redColor }) ∧
      ((accountFlows g.df).map Prod.fst).Nodup ∧
      (∀ a, a ∈ (accountFlows g.df).map Prod.fst ↔
        a ∈ g.df.map (fun t => t.account)) ∧
      (∀ p ∈ accountFlows g.df, p.2 = sumFor g.df p.1) := by
  have hopen : listIndexOf? (figNodes g) "Ingående balans" = some 0 := by
    simp [figNodes, listIndexOf?]
  have hlook : ∀ p ∈ accountFlows g.df, p.2 ≠ 0 →
      (listIndexOf? (figNodes g) (nodeLabel g.accounts p.1)).isSome = true := by
    intro p hp hnz
    obtain ⟨name, hname⟩ := Option.isSome_iff_exists.mp (h p hp hnz)
    have hmem : (p.1, name) ∈ g.accounts := dictGet?_mem _ _ _ hname
    have hlabel : nodeLabel g.accounts p.1 = p.1 ++ " - " ++ name := by
      simp [nodeLabel, dictGetD, hname]
    apply listIndexOf?_isSome_of_mem
    rw [hlabel]
    simp only [figNodes, List.mem_cons]
    right
    exact List.mem_map_of_mem (fun kv => kv.1 ++ " - " ++ kv.2) hmem
  have hpos := mkLinks_spec_pos (figNodes g) g.accounts hopen
    ((accountFlows g.df).filter (fun p => 0 < p.2))
    (fun p hp => by
      have h1 : (0 : ℚ) < p.2 := by simpa using List.of_mem_filter hp
      exact hlook p (List.mem_of_mem_filter hp) (ne_of_gt h1))
  have hneg := mkLinks_spec_neg (figNodes g) g.accounts hopen
    ((accountFlows g.df).filter (fun p => p.2 < 0))
    (fun p hp => by
      have h1 : p.2 < (0 : ℚ) := by simpa using List.of_mem_filter hp
      exact hlook p (List.mem_of_mem_filter hp) (ne_of_lt h1))
  have hposmap :
      ((accountFlows g.df).filter (fun p => 0 < p.2)).map (fun p =>
        ({ source := 0,
           target := (listIndexOf? (figNodes g)
             (nodeLabel g.accounts p.1)).getD 0,
           value := |p.2|, color := greenColor } : Link)) =
      ((accountFlows g.df).filter (fun p => 0 < p.2)).map (fun p =>
        ({ source := 0,
           target := (listIndexOf? (figNodes g)
             (nodeLabel g.accounts p.1)).getD 0,
           value := p.2, color := greenColor } : Link)) :=
    List.map_congr_left (fun p hp => by
      have h1 : (0 : ℚ) < p.2 := by simpa using List.of_mem_filter hp
      simp [abs_of_pos h1])
  have hnegmap :
      ((accountFlows g.df).filter (fun p => p.2 < 0)).map (fun p =>
        ({ source := (listIndexOf? (figNodes g)
             (nodeLabel g.accounts p.1)).getD 0,
           target := 0, value := |p.2|, color := redColor } : Link)) =
      ((accountFlows g.df).filter (fun p => p.2 < 0)).map (fun p =>
        ({ source := (listIndexOf? (figNodes g)
             (nodeLabel g.accounts p.1)).getD 0,
           target := 0, value := -p.2, color := redColor } : Link)) :=
    List.map_congr_left (fun p hp => by
      have h1 : p.2 < (0 : ℚ) := by simpa using List.of_mem_filter hp
      simp [abs_of_neg h1])
  have hgen : generate_sankey_data g = some
      { nodes := figNodes g,
        links :=
          ((accountFlows g.df).filter (fun p => 0 < p.2)).map (fun p =>
            ({ source := 0,
               target := (listIndexOf? (figNodes g)
                 (nodeLabel g.accounts p.1)).getD 0,
               value := p.2, color := greenColor } : Link)) ++
          ((accountFlows g.df).filter (fun p => p.2 < 0)).map (fun p =>
            ({ source := (listIndexOf? (figNodes g)
                 (nodeLabel g.accounts p.1)).getD 0,
               target := 0, value := -p.2, color := redColor } : Link)) } := by
    simp only [generate_sankey_data]
    rw [hpos, hneg]
    dsimp only
    rw [hposmap, hnegmap]
  have hkeys : ((accountFlows g.df).map Prod.fst) =
      sortKeys (g.df.map (fun t => t.account)).dedup := by
    unfold accountFlows
    rw [List.map_map]
    rw [show (Prod.fst ∘ fun a => (a, sumFor g.df a)) = id from rfl]
    exact List.map_id _
  refine ⟨_, hgen, rfl, ?_, ?_, ?_⟩
  · rw [hkeys]
    exact (sortKeys_perm _).symm.nodup (List.nodup_dedup _)
  · intro a
    rw [hkeys, (sortKeys_perm _).mem_iff]
    exact List.mem_dedup
  · intro p hp
    simp only [accountFlows, List.mem_map] at hp
    obtain ⟨a, _, ha⟩ := hp
    rw [← ha]

/-- Witness for `summarize_edges` at `demoGen` (accounts 1930 with sum 1000
and 3000 with sum −1000, both mapped). -/
theorem summarize_edges_witness :
    ∃ fig, generate_sankey_data demoGen = some fig ∧
      fig.links =
        ((accountFlows demoGen.df).filter (fun p => 0 < p.2)).map
          (fun p =>
            { source := 0,
              target := (listIndexOf? (figNodes demoGen)
                (nodeLabel demoGen.accounts p.1)).getD 0,
              value := p.2, color := greenColor }) ++
        ((accountFlows demoGen.df).filter (fun p => p.2 < 0)).map
          (fun p =>
            { source := (listIndexOf? (figNodes demoGen)
                (nodeLabel demoGen.accounts p.1)).getD 0,
              target := 0, value := -p.2, color := redColor }) ∧
      ((accountFlows demoGen.df).map Prod.fst).Nodup ∧
      (∀ a, a ∈ (accountFlows demoGen.df).map Prod.fst ↔
        a ∈ demoGen.df.map (fun t => t.account)) ∧
      (∀ p ∈ accountFlows demoGen.df, p.2 = sumFor demoGen.df p.1) :=
  summarize_edges demoGen (by decide)

/-- C5 is false as stated: a transaction on account `9999` with non-zero sum
and an empty accounts mapping does not yield an edge labelled with the
unknown-account name — the generator fails (the built label is absent from
the node list, so the `nodes.index` lookup raises), and no figure is
produced at all. -/
theorem unknown_account_crash_cex :
    generate_sankey_data
      { df := [{ date := "20230101", account := "9999", amount := 1,
                 description := "", ver_series := "A", ver_number := "1" }],
        accounts := [] } = none := by
  rfl

/-- The transaction branch never reads the accumulated `transactions` list:
prefixing it with earlier rows commutes with the branch. -/
theorem handleTrans_frame (st : LoopState) (n : Nat) (line : String)
    (t₀ : List Transaction) :
    handleTrans
      { st with ps := { st.ps with
        transactions := t₀ ++ st.ps.transactions } } n line =
      { handleTrans st n line with
        ps := { (handleTrans st n line).ps with
          transactions := t₀ ++ (handleTrans st n line).ps.transactions } } := by
  cases hcv : st.current_ver with
  | none => simp only [handleTrans, hcv]
  | some v =>
    simp only [handleTrans, hcv]
    by_cases h2 : 2 ≤ (transTokens line).length
    · rw [if_pos h2, if_pos h2]
      cases ha : amountOf? line with
      | none => rfl
      | some q => simp [List.append_assoc]
    · rw [if_neg h2, if_neg h2, hcv]

/-- The dispatch never reads the accumulated `transactions` list. -/
theorem dispatch_frame (st : LoopState) (n : Nat) (line : String)
    (parts : List String) (identifier : String) (t₀ : List Transaction) :
    dispatch
      { st with ps := { st.ps with
        transactions := t₀ ++ st.ps.transactions } } n line parts identifier =
      { dispatch st n line parts identifier with
        ps := { (dispatch st n line parts identifier).ps with
          transactions :=
            t₀ ++ (dispatch st n line parts identifier).ps.transactions } } := by
  unfold dispatch
  dsimp only
  by_cases h1 : identifier = "#FNAMN"
  · rw [if_pos h1, if_pos h1]
  · rw [if_neg h1, if_neg h1]
    by_cases h2 : identifier = "#RAR"
    · rw [if_pos h2, if_pos h2]
      by_cases h2b : 1 < parts.length
      · rw [if_pos h2b, if_pos h2b]
      · rw [if_neg h2b, if_neg h2b]
    · rw [if_neg h2, if_neg h2]
      by_cases h3 : identifier = "#KONTO"
      · rw [if_pos h3, if_pos h3]
        by_cases h3b : 2 ≤ parts.length
        · rw [if_pos h3b, if_pos h3b]
        · rw [if_neg h3b, if_neg h3b]
      · rw [if_neg h3, if_neg h3]
        by_cases h4 : identifier = "#VER"
        · rw [if_pos h4, if_pos h4]
        · rw [if_neg h4, if_neg h4]
          by_cases h5 : (st.parsing_ver && startsWithChar line '\x7b') = true
          · rw [if_pos h5, if_pos h5]
            exact handleTrans_frame st n line t₀
          · rw [if_neg h5, if_neg h5]
            by_cases h6 : (st.parsing_ver && startsWithChar line '\x7d') = true
            · rw [if_pos h6, if_pos h6]
            · rw [if_neg h6, if_neg h6]

/-- Processing one line never reads the accumulated `transactions` list. -/
theorem processLine_frame (st : LoopState) (n : Nat) (raw : String)
    (t₀ : List Transaction) :
    processLine
      { st with ps := { st.ps with
        transactions := t₀ ++ st.ps.transactions } } n raw =
      { processLine st n raw with
        ps := { (processLine st n raw).ps with
          transactions := t₀ ++ (processLine st n raw).ps.transactions } } := by
  simp only [processLine]
  by_cases he : pyStrip raw = ""
  · rw [if_pos he, if_pos he]
  · rw [if_neg he, if_neg he]
    cases htok : tokenizeLine (pyStrip raw) with
    | nil => rfl
    | cons identifier rest =>
      exact dispatch_frame
        { st with line_types := dictBump st.line_types identifier }
        n (pyStrip raw) (identifier :: rest) identifier t₀

/-- The whole line loop only appends to `transactions`: rows already present
before the loop are carried through unchanged, in front. -/
theorem runLines_frame (ls : List String) :
    ∀ (st : LoopState) (n : Nat) (t₀ : List Transaction),
    runLines
      { st with ps := { st.ps with
        transactions := t₀ ++ st.ps.transactions } } n ls =
      { runLines st n ls with
        ps := { (runLines st n ls).ps with
          transactions := t₀ ++ (runLines st n ls).ps.transactions } } := by
  induction ls with
  | nil => intro st n t₀; rfl
  | cons l rest ih =>
    intro st n t₀
    simp only [runLines]
    rw [processLine_frame]
    exact ih (processLine st n l) (n + 1) t₀

/-- C7 (amended): `parse_sie_file` on a reused parser state accumulates —
the returned table is always the instance's previously stored transactions
followed by exactly the rows a parse from a cleared state would produce on
the same input (metadata and the rest of the state evolve identically);
results are independent of earlier inputs only when each call starts from a
fresh (cleared) transactions list. -/
theorem parse_accumulates_transactions (self : ParserState)
    (content : List Nat) :
    parse_sie_file self content =
      (parse_sie_file { self with transactions := [] } content).map
        (fun r => (self.transactions ++ r.1, r.2.1,
          { r.2.2 with
            transactions := self.transactions ++ r.2.2.transactions })) := by
  unfold parse_sie_file
  cases hd : decodeContent content with
  | none => rfl
  | some decoded =>
    dsimp only
    have key := runLines_frame (pySplitLines decoded)
      { ps := { self with transactions := [] }, current_ver := none,
        parsing_ver := false, line_types := [], parsing_details := [] }
      1 self.transactions
    simp only [List.append_nil] at key
    rw [show ({ ps := self,
                current_ver := none,
                parsing_ver := false,
                line_types := [],
                parsing_details := [] } : LoopState) =
              { ps := { accounts := self.accounts,
                        transactions := self.transactions,
                        company_name := self.company_name,
                        fiscal_year := self.fiscal_year },
                current_ver := none,
                parsing_ver := false,
                line_types := [],
                parsing_details := [] } from rfl]
    rw [key]
    rfl

/-- C7 is false as stated: reusing one parser, the transactions of `fileA`
leak into the result of the later, unrelated parse of `fileB`, while a fresh
parse of `fileB` returns only its own row — the two results differ. -/
theorem parse_not_independent_cex :
    ((parse_sie_file initialParser fileA).bind
        (fun r => parse_sie_file r.2.2 fileB)).map
      (fun r => r.1.map (fun t => t.account)) = some ["1930", "3000"] ∧
    (parse_sie_file initialParser fileB).map
      (fun r => r.1.map (fun t => t.account)) = some ["3000"] ∧
    (some ["1930", "3000"] : Option (List String)) ≠ some ["3000"] := by
  refine ⟨by rfl, by rfl, by decide⟩

end SankeySaldo
